import Mathlib

/-!
Verification of the categorization engine of `backend/main.py`
(`extract_zelle_recipient`, `is_zelle_payment`, `extract_merchant_name`,
`get_transaction_key`, `categorize_expense`).

Modelling conventions (shallow embedding):
* Python strings are Lean `String`s (lists of characters); the case-mapping
  and character-class helpers (`str.upper`, `str.lower`, `\s`, `\d`, `\w`,
  `str.isalnum`) are modelled on the ASCII range, which covers every literal
  the code manipulates.
* Python `dict`s are association lists `List (String × String)`; `d.get(k)`
  is `List.lookup`; dict truthiness is non-emptiness of the list.
* `None` becomes `Option.none`; Python truthiness of an optional string
  (`if date:`, `if override_name:`) is `some s` with `s ≠ ""`.
* A Python `float` amount is represented by its canonical string form
  `str(amount)` (an `Option String`; `repr` of a float is injective and never
  contains `'|'`), since the resolver only tests `amount is not None` and
  `get_transaction_key` only uses `str(amount)`.
* `hashlib.md5(...).hexdigest()` is an uninterpreted parameter
  `md5Hex : String → String`; the builtin `hash : str → int`, which CPython
  randomizes per process via `PYTHONHASHSEED`, is an uninterpreted parameter
  `pyHash : String → Int` (one value of the parameter per process run).
* `DatabaseService` reads are a record of functions `Database` taking the
  `user_id` and the optional `user_token`; the resolver receives it
  explicitly, mirroring the ambient service object.
* Each `re.sub`/`re.search` call is implemented as a dedicated scanner with
  Python's leftmost-match, greedy-with-backtracking semantics for the one
  concrete pattern it handles.
-/

set_option maxRecDepth 100000

namespace FinancialPro

/-! ## Python string primitives (ASCII model) -/

/-- Whitespace class of Python's `str.strip` / regex `\s` (ASCII part). -/
def isPySpace (c : Char) : Bool :=
  c = ' ' || c = '\t' || c = '\n' || c = '\r' || c = '\x0b' || c = '\x0c'

/-- Word-character class of regex `\b` boundaries (`[A-Za-z0-9_]`). -/
def isWordChar (c : Char) : Bool :=
  c.isAlphanum || c = '_'

/-- Character class `[A-Z0-9]` used by the transaction-id patterns. -/
def isUpperAlnum (c : Char) : Bool :=
  ('A' ≤ c && c ≤ 'Z') || c.isDigit

/-- Remove trailing characters satisfying `p` (the right half of `strip`). -/
def dropWhileEnd (p : Char → Bool) : List Char → List Char
  | [] => []
  | c :: rest =>
    let r := dropWhileEnd p rest
    if r = [] && p c then [] else c :: r

/-- Python `str.strip()` on character lists. -/
def pyStripList (l : List Char) : List Char :=
  dropWhileEnd isPySpace (l.dropWhile isPySpace)

/-- Python `str.strip()`. -/
def pyStrip (s : String) : String :=
  ⟨pyStripList s.data⟩

/-- Python `str.lower()` (ASCII model). -/
def pyLower (s : String) : String :=
  ⟨s.data.map Char.toLower⟩

/-- Python `str.upper()` (ASCII model). -/
def pyUpper (s : String) : String :=
  ⟨s.data.map Char.toUpper⟩

/-- Does `l` begin with `needle`? -/
def startsWithL : List Char → List Char → Bool
  | [], _ => true
  | _ :: _, [] => false
  | a :: as, b :: bs => a = b && startsWithL as bs

/-- Substring test on character lists. -/
def containsL (needle : List Char) : List Char → Bool
  | [] => needle.isEmpty
  | c :: rest => startsWithL needle (c :: rest) || containsL needle rest

/-- Python's `needle in haystack` on strings. -/
def pyContains (needle haystack : String) : Bool :=
  containsL needle.data haystack.data

/-- Python `str.title()` (ASCII model): a letter following a non-letter is
upper-cased, a letter following a letter is lower-cased. -/
def pyTitleList : Bool → List Char → List Char
  | _, [] => []
  | prevAlpha, c :: rest =>
    if c.isAlpha then
      (if prevAlpha then c.toLower else c.toUpper) :: pyTitleList true rest
    else
      c :: pyTitleList false rest

/-- Python `str.title()`. -/
def pyTitle (s : String) : String :=
  ⟨pyTitleList false s.data⟩

/-- Worker for Python `str.split()`: `acc` holds the characters of the word
currently being read, in reverse; a whitespace character (or the end) closes
the word, and empty words are dropped. -/
def pySplitWsAux (acc : List Char) : List Char → List (List Char)
  | [] => if acc = [] then [] else [acc.reverse]
  | c :: rest =>
    if isPySpace c then
      (if acc = [] then [] else [acc.reverse]) ++ pySplitWsAux [] rest
    else
      pySplitWsAux (c :: acc) rest

/-- Python `str.split()` (no argument): split on whitespace runs, dropping
empty pieces. -/
def pySplitWs (l : List Char) : List (List Char) :=
  pySplitWsAux [] l

/-- Python `sep.join(parts)`. -/
def pyJoin (sep : String) : List String → String
  | [] => ""
  | [x] => x
  | x :: y :: rest => x ++ sep ++ pyJoin sep (y :: rest)

/-! ## A driver for `re.sub`

`subAll tryM prev l` scans `l` left to right.  `tryM prev cur` attempts to
match the (fixed) pattern at the start of `cur`, where `prev` is the character
just before `cur` in the original string (`none` at the string start) — needed
for `\b`.  On a match it returns the replacement text together with `k`, the
number of characters consumed beyond the first (total consumed `k + 1 ≥ 1`,
as every pattern below consumes at least one character).  Scanning resumes
after the consumed region, exactly like `re.sub`'s non-overlapping
leftmost-first replacement. -/

def subAllGo (tryM : Option Char → List Char → Option (List Char × Nat)) :
    Nat → Option Char → List Char → List Char
  | _, _, [] => []
  | 0, _, l => l
  | fuel + 1, prev, c :: rest =>
    match tryM prev (c :: rest) with
    | some (repl, k) => repl ++ subAllGo tryM fuel ((c :: rest)[k]?) (rest.drop k)
    | none => c :: subAllGo tryM fuel (some c) rest

/-- The driver proper; the fuel, initialized to the input length, exists only
to make the recursion structural: every step consumes at least one input
character, so the fuel never runs out. -/
def subAll (tryM : Option Char → List Char → Option (List Char × Nat))
    (prev : Option Char) (l : List Char) : List Char :=
  subAllGo tryM l.length prev l

/-- Is the position after the end of a match a `\b` boundary, given that the
last matched character is a word character? (`none` = end of input.) -/
def noWordAt : Option Char → Bool
  | none => true
  | some c => !isWordChar c

/-- Is the position before the match a `\b` boundary, given that the first
matched character is a word character? (`none` = start of input.) -/
def noWordBefore : Option Char → Bool
  | none => true
  | some c => !isWordChar c

/-- Optional-character class test. -/
def isDigitAt : Option Char → Bool
  | none => false
  | some c => c.isDigit

/-- Length of the initial run satisfying `p`. -/
def countWhile (p : Char → Bool) (l : List Char) : Nat :=
  (l.takeWhile p).length

/-! ## The eleven `re.sub` patterns of `extract_merchant_name` -/

/-- `re.sub(r'\b\d{1,2}/\d{1,2}\b', '', desc)`, greedy with backtracking
(`\d{1,2}` tries two digits before one). -/
def tryDate1 (prev : Option Char) (l : List Char) : Option (List Char × Nat) :=
  if noWordBefore prev then
    if isDigitAt l[0]? && isDigitAt l[1]? && l[2]? = some '/' then
      if isDigitAt l[3]? && isDigitAt l[4]? && noWordAt l[5]? then some ([], 4)
      else if isDigitAt l[3]? && noWordAt l[4]? then some ([], 3)
      else none
    else if isDigitAt l[0]? && l[1]? = some '/' then
      if isDigitAt l[2]? && isDigitAt l[3]? && noWordAt l[4]? then some ([], 3)
      else if isDigitAt l[2]? && noWordAt l[3]? then some ([], 2)
      else none
    else none
  else none

/-- `re.sub(r'\b\d{2}/\d{2}/\d{2,4}\b', '', desc)` (`\d{2,4}` tries 4, 3,
then 2 digits). -/
def tryDate2 (prev : Option Char) (l : List Char) : Option (List Char × Nat) :=
  if noWordBefore prev && isDigitAt l[0]? && isDigitAt l[1]? &&
      l[2]? = some '/' && isDigitAt l[3]? && isDigitAt l[4]? &&
      l[5]? = some '/' && isDigitAt l[6]? && isDigitAt l[7]? then
    if isDigitAt l[8]? && isDigitAt l[9]? && noWordAt l[10]? then some ([], 9)
    else if isDigitAt l[8]? && noWordAt l[9]? then some ([], 8)
    else if noWordAt l[8]? then some ([], 7)
    else none
  else none

/-- `re.sub(r'\b\d{6,}\b', '', desc)`: only the maximal digit run can satisfy
the trailing `\b` (a shorter greedy choice is followed by a digit). -/
def tryLongNum (prev : Option Char) (l : List Char) : Option (List Char × Nat) :=
  if noWordBefore prev then
    let r := countWhile Char.isDigit l
    if 6 ≤ r && noWordAt l[r]? then some ([], r - 1) else none
  else none

/-- The two-letter state codes of the alternation in
`re.sub(r'\s+(FL|CA|...|WA)\s*$', '', desc)`. -/
def stateCodes : List (Char × Char) :=
  [('F','L'), ('C','A'), ('N','Y'), ('T','X'), ('G','A'), ('N','C'),
   ('S','C'), ('V','A'), ('M','D'), ('P','A'), ('N','J'), ('C','T'),
   ('M','A'), ('O','H'), ('M','I'), ('I','L'), ('I','N'), ('W','I'),
   ('M','N'), ('I','A'), ('M','O'), ('A','R'), ('L','A'), ('M','S'),
   ('A','L'), ('T','N'), ('K','Y'), ('W','V'), ('D','E'), ('D','C'),
   ('W','A')]

/-- `re.sub(r'\s+(FL|...|WA)\s*$', '', desc)`: one-or-more whitespace, a state
code, then only whitespace up to the end of the string (the greedy `\s*`
reaches the end, where `$` holds). -/
def tryState (prev : Option Char) (l : List Char) : Option (List Char × Nat) :=
  let w := countWhile isPySpace l
  if 1 ≤ w then
    match l[w]?, l[w+1]? with
    | some c1, some c2 =>
      if (c1, c2) ∈ stateCodes && (l.drop (w + 2)).all isPySpace then
        some ([], l.length - 1)
      else none
    | _, _ => none
  else none

/-- `re.sub(r'\s*#\d+\s*', ' ', desc)`. -/
def tryStoreHash (prev : Option Char) (l : List Char) : Option (List Char × Nat) :=
  let w := countWhile isPySpace l
  if l[w]? = some '#' then
    let d := countWhile Char.isDigit (l.drop (w + 1))
    if 1 ≤ d then
      let w2 := countWhile isPySpace (l.drop (w + 1 + d))
      some ([' '], w + d + w2)
    else none
  else none

/-- `re.sub(r'\s+\d{3,6}\s*', ' ', desc)`: greedy `\d{3,6}` takes at most six
digits, leaving any further digits in place. -/
def tryStoreNum (prev : Option Char) (l : List Char) : Option (List Char × Nat) :=
  let w := countWhile isPySpace l
  if 1 ≤ w then
    let d := countWhile Char.isDigit (l.drop w)
    if 3 ≤ d then
      let dd := min d 6
      let w2 := countWhile isPySpace (l.drop (w + dd))
      some ([' '], w + dd + w2 - 1)
    else none
  else none

/-- `re.sub(r'\*[A-Z0-9]{6,}', '', desc)`. -/
def tryStarId (prev : Option Char) (l : List Char) : Option (List Char × Nat) :=
  if l[0]? = some '*' then
    let r := countWhile isUpperAlnum (l.drop 1)
    if 6 ≤ r then some ([], r) else none
  else none

/-- `re.sub(r'MKTPL\*[A-Z0-9]+', 'MKTPL', desc)`. -/
def tryMktpl (prev : Option Char) (l : List Char) : Option (List Char × Nat) :=
  if startsWithL ['M','K','T','P','L','*'] l then
    let r := countWhile isUpperAlnum (l.drop 6)
    if 1 ≤ r then some (['M','K','T','P','L'], 5 + r) else none
  else none

/-- Shared tail of the `\s+<literal>.*$` patterns: after the literal, `.*`
consumes the run of non-newline characters; `$` then holds iff nothing or a
single final newline remains (the newline itself is not consumed). -/
def dotStarEnd (t : List Char) : Option Nat :=
  let n := countWhile (fun c => c ≠ '\n') t
  if (t.drop n).length ≤ 1 then some n else none

/-- `re.sub(r'\s+AMZN\.COM/BILL.*$', '', desc)`. -/
def tryAmzn (prev : Option Char) (l : List Char) : Option (List Char × Nat) :=
  let w := countWhile isPySpace l
  if 1 ≤ w && startsWithL ['A','M','Z','N','.','C','O','M','/','B','I','L','L'] (l.drop w) then
    match dotStarEnd (l.drop (w + 13)) with
    | some n => some ([], w + 13 + n - 1)
    | none => none
  else none

/-- `re.sub(r'\s+MIAMI.*$', '', desc)`. -/
def tryMiami (prev : Option Char) (l : List Char) : Option (List Char × Nat) :=
  let w := countWhile isPySpace l
  if 1 ≤ w && startsWithL ['M','I','A','M','I'] (l.drop w) then
    match dotStarEnd (l.drop (w + 5)) with
    | some n => some ([], w + 5 + n - 1)
    | none => none
  else none

/-- `re.sub(r'\s+', ' ', desc)`. -/
def trySpaces (prev : Option Char) (l : List Char) : Option (List Char × Nat) :=
  let w := countWhile isPySpace l
  if 1 ≤ w then some ([' '], w - 1) else none

/-! ## `extract_merchant_name` (main.py lines 169-229) -/

/-- Steps 1-8 of `extract_merchant_name` before the final `strip()`:
`description.strip().upper()` followed by the eleven `re.sub` passes, the
last being the whitespace collapse. -/
def mnCleanededRaw (description : String) : List Char :=
  let d0 := pyUpper (pyStrip description)
  let d1 := subAll tryDate1 none d0.data
  let d2 := subAll tryDate2 none d1
  let d3 := subAll tryLongNum none d2
  let d4 := subAll tryState none d3
  let d5 := subAll tryStoreHash none d4
  let d6 := subAll tryStoreNum none d5
  let d7 := subAll tryStarId none d6
  let d8 := subAll tryMktpl none d7
  let d9 := subAll tryAmzn none d8
  let d10 := subAll tryMiami none d9
  subAll trySpaces none d10

/-- Steps 1-8 of `extract_merchant_name`, ending with the final `strip()`. -/
def mnCleaned (description : String) : String :=
  pyStrip ⟨mnCleanededRaw description⟩

/-- Step 9-10 of `extract_merchant_name`, operating on the cleaned
description: the special-case branches for `CVS`/`PHARMACY` and `AMAZON`,
otherwise the first two whitespace-separated words (or the single word, or
the cleaned string itself when it has no words), finally `strip()`ped on
return. -/
def mnPick (desc : String) : String :=
  let merchant :=
    if pyContains "CVS" desc && pyContains "PHARMACY" desc then
      "CVS/PHARMACY"
    else if pyContains "AMAZON" desc then
      "AMAZON"
    else
      let words := pySplitWs desc.data
      if 2 ≤ words.length then
        pyJoin " " ((words.take 2).map (fun w => (⟨w⟩ : String)))
      else
        match words with
        | [w] => (⟨w⟩ : String)
        | _ => desc
  pyStrip merchant

/-- `extract_merchant_name(description)`: clean, then pick the merchant
token. -/
def extract_merchant_name (description : String) : String :=
  mnPick (mnCleaned description)

/-! ## Zelle detection and recipient extraction (main.py lines 141-167) -/

/-- Attempt `re.search(r'zelle payment to\s+([^0-9]+)', low)` at one start
position, returning the captured group. After the literal, greedy `\s+`
takes the full whitespace run; if no non-digit follows it, the engine
backtracks one whitespace character (itself a non-digit) into the capture,
provided the run has at least two characters. -/
def zelleTryAt (l : List Char) : Option (List Char) :=
  if startsWithL
      ['z','e','l','l','e',' ','p','a','y','m','e','n','t',' ','t','o'] l then
    let t := l.drop 16
    let w := countWhile isPySpace t
    if w = 0 then none
    else
      let cap := (t.drop w).takeWhile (fun c => !c.isDigit)
      if cap ≠ [] then some cap
      else if 2 ≤ w then some ((t.drop (w - 1)).take 1)
      else none
  else none

/-- Leftmost match of the recipient pattern over the lower-cased
description. -/
def zelleSearch : List Char → Option (List Char)
  | [] => none
  | c :: rest =>
    match zelleTryAt (c :: rest) with
    | some cap => some cap
    | none => zelleSearch rest

/-- `extract_zelle_recipient(description)`: guard on the trigger phrase, then
the capture of the leftmost pattern match, `strip()`ped and title-cased;
`None` when either search fails. -/
def extract_zelle_recipient (description : String) : Option String :=
  let low := pyLower description
  if !pyContains "zelle payment to" low then none
  else
    match zelleSearch low.data with
    | some cap => some (pyTitle (pyStrip ⟨cap⟩))
    | none => none

/-- `is_zelle_payment(description)`. -/
def is_zelle_payment (description : String) : Bool :=
  pyContains "zelle payment to" (pyLower description)

/-! ## `get_transaction_key` (main.py lines 231-251) -/

/-- Truthy view of the optional `date` argument: Python's `if date:` treats
`None` and `""` alike as absent. -/
def dateVal (date : Option String) : Option String :=
  match date with
  | some d => if d = "" then none else some d
  | none => none

/-- The string fed to `hashlib.md5`:
`"|".join([str(description).strip(), str(amount)] + ([str(date)] if date else []))`. -/
def transactionString (description amountStr : String) (date : Option String) :
    String :=
  let key_parts :=
    [pyStrip description, amountStr] ++
      (match dateVal date with
       | some d => [d]
       | none => [])
  pyJoin "|" key_parts

/-- `get_transaction_key(description, amount, date)`, with the md5 hex digest
as the uninterpreted parameter `md5Hex`. The slug keeps the alphanumeric,
`-` and `_` characters of the first twenty characters of the description,
falling back to `"transaction"`. -/
def get_transaction_key (md5Hex : String → String) (description amountStr : String)
    (date : Option String) : String :=
  let hash_hex := md5Hex (transactionString description amountStr date)
  let clean_desc :=
    pyStrip ⟨(description.data.take 20).filter
      (fun c => c.isAlphanum || c = '-' || c = '_')⟩
  let clean_desc := if clean_desc = "" then "transaction" else clean_desc
  clean_desc ++ "_" ++ (⟨hash_hex.data.take 8⟩ : String)

/-! ## The categorization resolver (main.py lines 254-313) -/

/-- One user category: `{'name': ..., 'keywords': [...]}` (`keywords` read
with `category.get('keywords', [])`). -/
structure Category where
  name : String
  keywords : List String
deriving DecidableEq

/-- The ambient `DatabaseService` reads the resolver falls back to when a
reference collection is not passed in explicitly; each is a function of
`user_id` and the optional `user_token`. -/
structure Database where
  transaction_overrides : String → Option String → List (String × String)
  merchant_mappings : String → Option String → List (String × String)
  zelle_recipients : String → Option String → List (String × String)
  categories : String → Option String → List Category

/-- Stage 1 of `categorize_expense`: the manual-override check, entered only
when `amount is not None`; a present-but-falsy (empty) override value falls
through (`if override_name:`). -/
def overrideStage (md5Hex : String → String) (db : Database)
    (user_id : String) (user_token : Option String) (description : String)
    (amount : Option String) (date : Option String)
    (overrides : Option (List (String × String))) : Option (String × String) :=
  match amount with
  | none => none
  | some a =>
    let transaction_key := get_transaction_key md5Hex description a date
    let ovs := overrides.getD (db.transaction_overrides user_id user_token)
    let override_name :=
      if ovs = [] then none else List.lookup transaction_key ovs
    match override_name with
    | some v => if v = "" then none else some (v, "saved")
    | none => none

/-- Stage 2: the Zelle-recipient check (`if recipient:` skips a falsy
recipient). -/
def zelleStage (db : Database) (user_id : String) (user_token : Option String)
    (description : String) (zelle_mappings : Option (List (String × String))) :
    Option (String × String) :=
  if is_zelle_payment description then
    match extract_zelle_recipient description with
    | some recipient =>
      if recipient = "" then none
      else
        let zm := zelle_mappings.getD (db.zelle_recipients user_id user_token)
        match List.lookup recipient zm with
        | some v => some (v, "saved")
        | none => none
    | none => none
  else none

/-- Stage 3: merchant matching, skipped for Zelle payments; requires the
mapping dict to be truthy and the merchant key present. -/
def merchantStage (db : Database) (user_id : String) (user_token : Option String)
    (description : String)
    (merchant_mappings : Option (List (String × String))) :
    Option (String × String) :=
  if is_zelle_payment description then none
  else
    let merchant_name := extract_merchant_name description
    let mm := merchant_mappings.getD (db.merchant_mappings user_id user_token)
    if mm = [] then none
    else
      match List.lookup merchant_name mm with
      | some v => some (v, "saved")
      | none => none

/-- Stage 4: first category/keyword pair whose lower-cased keyword is a
substring of the trimmed lower-cased description. -/
def keywordStage (cats : List Category) (description_lower : String) :
    Option (String × String) :=
  cats.findSome? (fun c =>
    c.keywords.findSome? (fun kw =>
      if pyContains (pyLower kw) description_lower then some (c.name, "saved")
      else none))

/-- Stage 5/6: hash-based fallback over the category names, or
`("Uncategorized", "new")` when there are none. `pyHash` stands for the
per-process builtin `hash : str → int`; Python's `%` with a positive modulus
agrees with `Int.emod`. -/
def fallbackStage (pyHash : String → Int) (cats : List Category)
    (description_lower : String) : String × String :=
  match cats.map (fun c => c.name) with
  | [] => ("Uncategorized", "new")
  | x :: xs =>
    let hash_value := ((pyHash description_lower) % (((x :: xs).length : Nat) : Int)).toNat
    ((x :: xs).get ⟨hash_value, by
      have hpos : (0 : Int) < (((x :: xs).length : Nat) : Int) := by
        exact_mod_cast Nat.succ_pos xs.length
      have h1 := Int.emod_nonneg (pyHash description_lower)
        (by omega : (((x :: xs).length : Nat) : Int) ≠ 0)
      have h2 := Int.emod_lt_of_pos (pyHash description_lower) hpos
      omega⟩, "new")

/-- `categorize_expense(user_id, description, amount, date, user_token,
overrides, merchant_mappings, zelle_mappings, categories)`, with the two
uninterpreted hash parameters and the ambient `DatabaseService` made
explicit. Each `None` reference collection falls back to the corresponding
database read, exactly as in the source. -/
def categorize_expense (md5Hex : String → String) (pyHash : String → Int)
    (db : Database) (user_id : String) (description : String)
    (amount : Option String) (date : Option String)
    (user_token : Option String)
    (overrides merchant_mappings zelle_mappings : Option (List (String × String)))
    (categories : Option (List Category)) : String × String :=
  let cats := categories.getD (db.categories user_id user_token)
  let description_lower := pyStrip (pyLower description)
  match overrideStage md5Hex db user_id user_token description amount date overrides with
  | some r => r
  | none =>
    match zelleStage db user_id user_token description zelle_mappings with
    | some r => r
    | none =>
      match merchantStage db user_id user_token description merchant_mappings with
      | some r => r
      | none =>
        match keywordStage cats description_lower with
        | some r => r
        | none => fallbackStage pyHash cats description_lower

/-! ## Concrete fixtures used by closed statements -/

/-- A database whose every read returns the empty collection. -/
def emptyDb : Database :=
  ⟨fun _ _ => [], fun _ _ => [], fun _ _ => [], fun _ _ => []⟩

/-- A concrete stand-in for the md5 hex-digest function. -/
def md5A : String → String := fun _ => "abcd1234efgh"

/-- The transaction key of (`"Local Shop"`, `-5.0`, no date) under `md5A`. -/
def keyLocalShop : String := get_transaction_key md5A "Local Shop" "-5.0" none

/-! ## Theorems

Helper lemmas first, then one theorem per claim (plus the witnesses and
counterexamples the claims need). -/

theorem data_inj {s t : String} (h : s.data = t.data) : s = t := by
  cases s
  cases t
  exact congrArg String.mk h

theorem fallbackStage_mem (pyHash : String → Int) (cats : List Category)
    (dl : String) (hne : cats ≠ []) :
    (fallbackStage pyHash cats dl).1 ∈ cats.map (fun c => c.name) ∧
    (fallbackStage pyHash cats dl).2 = "new" := by
  cases hcs : cats with
  | nil => exact absurd hcs hne
  | cons c0 cs =>
    subst hcs
    constructor
    · simp only [fallbackStage, List.map_cons]
      exact List.get_mem _ _ _
    · simp only [fallbackStage, List.map_cons]

theorem pyJoin_two (sep x y : String) : pyJoin sep [x, y] = x ++ sep ++ y :=
  rfl

theorem pyJoin_three (sep x y z : String) :
    pyJoin sep [x, y, z] = x ++ sep ++ (y ++ sep ++ z) :=
  rfl

/-- The digest input laid out as a character list: the stripped description,
a bar, the amount string, and `'|' :: date` when the date is truthy. -/
theorem transactionString_data (description amountStr : String)
    (date : Option String) :
    (transactionString description amountStr date).data =
      (pyStrip description).data ++ '|' :: (amountStr.data ++
        (match dateVal date with
         | some d => '|' :: d.data
         | none => [])) := by
  cases hdv : dateVal date with
  | none =>
    simp only [transactionString, hdv, List.append_nil, pyJoin_two,
      String.data_append]
    simp
  | some d =>
    simp only [transactionString, hdv]
    simp only [show [pyStrip description, amountStr] ++ [d] =
      [pyStrip description, amountStr, d] from rfl, pyJoin_three,
      String.data_append]
    simp

theorem takeWhile_append_bar (a r : List Char) (ha : ∀ c ∈ a, c ≠ '|')
    (hr : r = [] ∨ ∃ t, r = '|' :: t) :
    (a ++ r).takeWhile (fun c => c != '|') = a := by
  induction a with
  | nil =>
    rcases hr with rfl | ⟨t, rfl⟩
    · rfl
    · simp [List.takeWhile]
  | cons c as ih =>
    have hc : (c != '|') = true := by
      simpa using ha c (List.mem_cons_self c as)
    simp only [List.cons_append, List.takeWhile_cons, hc, if_true]
    rw [ih (fun x hx => ha x (List.mem_cons_of_mem c hx))]

/-- Injectivity of the digest input in the amount and the truthy date, for a
fixed description and bar-free amount strings. -/
theorem key_input_inj (description a₁ a₂ : String) (d₁ d₂ : Option String)
    (hb₁ : ∀ c ∈ a₁.data, c ≠ '|') (hb₂ : ∀ c ∈ a₂.data, c ≠ '|')
    (heq : transactionString description a₁ d₁ =
      transactionString description a₂ d₂) :
    a₁ = a₂ ∧ dateVal d₁ = dateVal d₂ := by
  have h := congrArg String.data heq
  rw [transactionString_data, transactionString_data] at h
  have h2 := List.append_cancel_left h
  have h3 : a₁.data ++
      (match dateVal d₁ with
       | some d => '|' :: d.data
       | none => ([] : List Char)) = a₂.data ++
      (match dateVal d₂ with
       | some d => '|' :: d.data
       | none => []) := by
    exact (List.cons_eq_cons.mp h2).2
  have hshape : ∀ dv : Option String,
      (match dv with
       | some d => '|' :: d.data
       | none => ([] : List Char)) = [] ∨
      ∃ t, (match dv with
       | some d => '|' :: d.data
       | none => ([] : List Char)) = '|' :: t := by
    intro dv
    cases dv with
    | none => exact Or.inl rfl
    | some d => exact Or.inr ⟨d.data, rfl⟩
  have ha : a₁.data = a₂.data := by
    have t1 := congrArg (List.takeWhile (fun c => c != '|')) h3
    rwa [takeWhile_append_bar _ _ hb₁ (hshape (dateVal d₁)),
      takeWhile_append_bar _ _ hb₂ (hshape (dateVal d₂))] at t1
  refine ⟨data_inj ha, ?_⟩
  rw [ha] at h3
  have hr := List.append_cancel_left h3
  cases hd₁ : dateVal d₁ with
  | none =>
    cases hd₂ : dateVal d₂ with
    | none => rfl
    | some d => rw [hd₁, hd₂] at hr; simp at hr
  | some d =>
    cases hd₂ : dateVal d₂ with
    | none => rw [hd₁, hd₂] at hr; simp at hr
    | some d' =>
      rw [hd₁, hd₂] at hr
      have := (List.cons_eq_cons.mp hr).2
      rw [data_inj this]

theorem dropWhile_head_not (p : Char → Bool) (l : List Char) (c : Char)
    (rest : List Char) (h : l.dropWhile p = c :: rest) : p c = false := by
  induction l with
  | nil => simp [List.dropWhile] at h
  | cons a as ih =>
    rw [List.dropWhile_cons] at h
    by_cases hpa : p a = true
    · rw [if_pos hpa] at h
      exact ih h
    · rw [if_neg hpa] at h
      cases h
      simpa using hpa

theorem dropWhileEnd_eq_nil (p : Char → Bool) (l : List Char)
    (h : dropWhileEnd p l = []) : ∀ c ∈ l, p c = true := by
  induction l with
  | nil => simp
  | cons a as ih =>
    simp only [dropWhileEnd] at h
    by_cases hr : dropWhileEnd p as = []
    · by_cases hpa : p a = true
      · intro c hc
        rcases List.mem_cons.mp hc with rfl | hc2
        · exact hpa
        · exact ih hr c hc2
      · rw [if_neg (by simp [hr, hpa])] at h
        simp at h
    · rw [if_neg (by simp [hr])] at h
      simp at h

theorem dropWhileEnd_head (p : Char → Bool) (l : List Char) (c : Char)
    (rest : List Char) (h : dropWhileEnd p l = c :: rest) :
    ∃ t, l = c :: t := by
  cases l with
  | nil => simp [dropWhileEnd] at h
  | cons a as =>
    simp only [dropWhileEnd] at h
    split at h
    · cases h
    · cases h
      exact ⟨as, rfl⟩

/-- A non-empty `strip()` result starts with a non-whitespace character. -/
theorem stripList_cases (l : List Char) :
    pyStripList l = [] ∨
    ∃ c rest, pyStripList l = c :: rest ∧ isPySpace c = false := by
  cases hs : pyStripList l with
  | nil => exact Or.inl rfl
  | cons c rest =>
    refine Or.inr ⟨c, rest, rfl, ?_⟩
    unfold pyStripList at hs
    obtain ⟨t, ht⟩ := dropWhileEnd_head _ _ _ _ hs
    exact dropWhile_head_not _ _ _ _ ht

/-- An empty `strip()` result means the input was all whitespace. -/
theorem stripList_eq_nil (l : List Char) (h : pyStripList l = []) :
    ∀ c ∈ l, isPySpace c = true := by
  unfold pyStripList at h
  intro c hc
  rw [← List.takeWhile_append_dropWhile isPySpace l] at hc
  rcases List.mem_append.mp hc with h1 | h2
  · exact List.mem_takeWhile_imp h1
  · exact dropWhileEnd_eq_nil _ _ h c h2

/-- With a non-empty accumulator, the split worker emits at least one word,
whose characters include those of the accumulator. -/
theorem splitAux_ne_nil (l : List Char) (acc : List Char) (hacc : acc ≠ []) :
    ∃ w ws2, pySplitWsAux acc l = w :: ws2 ∧ ∀ x ∈ acc, x ∈ w := by
  induction l generalizing acc with
  | nil =>
    refine ⟨acc.reverse, [], ?_, ?_⟩
    · simp [pySplitWsAux, hacc]
    · intro x hx
      simpa using hx
  | cons c rest ih =>
    by_cases hws : isPySpace c = true
    · refine ⟨acc.reverse, pySplitWsAux [] rest, ?_, ?_⟩
      · simp [pySplitWsAux, hws, hacc]
      · intro x hx
        simpa using hx
    · obtain ⟨w, ws2, hw, hmem⟩ := ih (c :: acc) (by simp)
      refine ⟨w, ws2, ?_, ?_⟩
      · simpa [pySplitWsAux, hws] using hw
      · intro x hx
        exact hmem x (by simp [hx])

/-- Core of C4: the merchant picker returns a non-empty string on any cleaned
description that starts with a non-whitespace character. -/
theorem mnPick_ne_empty (D : String) (c : Char) (rest : List Char)
    (hD : D.data = c :: rest) (hc : isPySpace c = false) : mnPick D ≠ "" := by
  have hstrip_ne : ∀ (w : List Char), c ∈ w → pyStrip ⟨w⟩ ≠ "" := by
    intro w hcw hem
    have hall := stripList_eq_nil w (congrArg String.data hem)
    rw [hall c hcw] at hc
    cases hc
  by_cases h1 : (pyContains "CVS" D && pyContains "PHARMACY" D) = true
  · simp only [mnPick, h1, if_true]
    decide
  · by_cases h2 : pyContains "AMAZON" D = true
    · simp only [mnPick, h1, if_false, h2, if_true]
      decide
    · obtain ⟨w, ws2, hw, hcw⟩ :
          ∃ w ws2, pySplitWs D.data = w :: ws2 ∧ c ∈ w := by
        rw [hD]
        have hone : pySplitWs (c :: rest) = pySplitWsAux [c] rest := by
          simp [pySplitWs, pySplitWsAux, hc]
        rw [hone]
        obtain ⟨w, ws2, hw, hm⟩ := splitAux_ne_nil rest [c] (by simp)
        exact ⟨w, ws2, hw, hm c (by simp)⟩
      cases ws2 with
      | nil =>
        have hpick : mnPick D = pyStrip ⟨w⟩ := by
          simp [mnPick, h1, h2, hw]
        rw [hpick]
        exact hstrip_ne w hcw
      | cons w2 ws3 =>
        have hpick : mnPick D =
            pyStrip (pyJoin " " [(⟨w⟩ : String), (⟨w2⟩ : String)]) := by
          have hlen : 2 ≤ (w :: w2 :: ws3).length := by
            simp [List.length_cons]
          simp [mnPick, h1, h2, hw, hlen, List.take]
        rw [hpick]
        intro hem
        have hdj : (pyJoin " " [(⟨w⟩ : String), (⟨w2⟩ : String)]).data =
            w ++ ' ' :: w2 := by
          rw [pyJoin_two]
          simp [String.data_append]
        have hall := stripList_eq_nil _ (congrArg String.data hem)
        rw [hdj] at hall
        have := hall c (List.mem_append_left _ hcw)
        rw [this] at hc
        cases hc

/-- C2: the fallback stage of the resolver is claimed to be deterministic
across runs of the program because the string hash is stable. The code
computes `hash(description_lower) % len(category_names)` with Python's
builtin `hash`, which for `str` is SipHash keyed per process via
`PYTHONHASHSEED`: the selected category is a function of the per-run hash.
This theorem exhibits the dependence: with two (equally legitimate) values of
the per-run hash function, the resolver picks two different categories on
identical inputs that reach the fallback stage. -/
theorem C2_fallback_depends_on_process_hash :
    categorize_expense (fun _ => "") (fun _ => 0) emptyDb "u" "zzqx" none none
        none (some []) (some []) (some [])
        (some [⟨"A", []⟩, ⟨"B", []⟩]) ≠
      categorize_expense (fun _ => "") (fun _ => 1) emptyDb "u" "zzqx" none none
        none (some []) (some []) (some [])
        (some [⟨"A", []⟩, ⟨"B", []⟩]) := by
  decide

/-- C7: end-to-end keyword scenario. With the single category `Groceries`
(keywords `grocery`, `market`), empty overrides, merchant map and recipient
map, the transaction (`"Local Market Purchase"`, `-42.50` (whose canonical
string form is `"-42.5"`), `"2024-03-01"`) resolves to
`("Groceries", "saved")` — for every digest function, hash function, database
state, user id and token. -/
theorem C7_end_to_end_keyword (md5Hex : String → String) (pyHash : String → Int)
    (db : Database) (user_id : String) (user_token : Option String) :
    categorize_expense md5Hex pyHash db user_id "Local Market Purchase"
        (some "-42.5") (some "2024-03-01") user_token (some []) (some [])
        (some []) (some [⟨"Groceries", ["grocery", "market"]⟩]) =
      ("Groceries", "saved") := by
  rfl

/-- C8: merchant-identity stability. The two Amazon marketplace descriptions
differing only in the `*`-introduced transaction id normalize to the same
token, and that token is `"AMAZON"`. -/
theorem C8_merchant_identity_stability :
    extract_merchant_name "AMAZON MKTPL*AB12CD34 SEATTLE WA" = "AMAZON" ∧
    extract_merchant_name "AMAZON MKTPL*ZZ99YY11 SEATTLE WA" = "AMAZON" ∧
    extract_merchant_name "AMAZON MKTPL*AB12CD34 SEATTLE WA" =
      extract_merchant_name "AMAZON MKTPL*ZZ99YY11 SEATTLE WA" := by
  refine ⟨?_, ?_, ?_⟩ <;> decide

/-- C9: transfer detection. The Zelle description is detected, its recipient
is the text between the trigger phrase and the first digit run, trimmed and
title-cased (`"Doris"`); a grocery description is not detected; and whenever
the leftmost search for the recipient pattern fails on the lower-cased
description, the extractor returns no value. -/
theorem C9_transfer_detection :
    is_zelle_payment "Zelle payment to Doris 25858144732" = true ∧
    extract_zelle_recipient "Zelle payment to Doris 25858144732" =
      some "Doris" ∧
    is_zelle_payment "Grocery Store Purchase" = false ∧
    ∀ d : String, zelleSearch (pyLower d).data = none →
      extract_zelle_recipient d = none := by
  refine ⟨by decide, by decide, by decide, ?_⟩
  intro d h
  simp only [extract_zelle_recipient, h]
  split <;> rfl

/-- C9 witness: the universally quantified part of `C9_transfer_detection`
applied at the concrete description `"Grocery Store Purchase"`, on which the
pattern search fails. -/
theorem C9_transfer_detection_witness :
    zelleSearch (pyLower "Grocery Store Purchase").data = none ∧
    extract_zelle_recipient "Grocery Store Purchase" = none :=
  ⟨by decide,
   C9_transfer_detection.2.2.2 "Grocery Store Purchase" (by decide)⟩

/-- C1 counterexample: the claim promises `(overrides[key], saved)` whenever
the transaction key is present in the overrides map, but the code guards the
override value with Python truthiness (`if override_name:`), so a present
key mapped to the empty string falls through — here to the merchant stage,
which returns `("MappedCat", "saved") ≠ ("", "saved")`. -/
theorem C1_override_empty_value_cex :
    List.lookup keyLocalShop [(keyLocalShop, "")] = some "" ∧
    categorize_expense md5A (fun _ => 0) emptyDb "u" "Local Shop"
        (some "-5.0") none none (some [(keyLocalShop, "")])
        (some [("LOCAL SHOP", "MappedCat")]) (some [])
        (some [⟨"Groceries", ["shop"]⟩]) =
      ("MappedCat", "saved") := by
  refine ⟨by decide, by decide⟩

/-- C1 (amended): whenever the transaction key computed from the description,
the amount and the date is present in the supplied overrides map with a
non-empty category name, the resolver returns that name with status `saved`,
regardless of the merchant map, the recipient map, the categories (so in
particular even when the merchant token is mapped and a keyword matches:
the override stage supersedes every later stage), the database state and
the hash functions. The non-emptiness proviso is forced by
`C1_override_empty_value_cex`. -/
theorem C1_override_priority (md5Hex : String → String) (pyHash : String → Int)
    (db : Database) (uid : String) (description a : String)
    (date : Option String) (tok : Option String)
    (ovs : List (String × String))
    (mms zms : Option (List (String × String)))
    (categories : Option (List Category)) (v : String)
    (hlook : List.lookup (get_transaction_key md5Hex description a date) ovs =
      some v)
    (hv : v ≠ "") :
    categorize_expense md5Hex pyHash db uid description (some a) date tok
      (some ovs) mms zms categories = (v, "saved") := by
  have hne : ovs ≠ [] := by
    intro h
    subst h
    simp [List.lookup] at hlook
  have hov : overrideStage md5Hex db uid tok description (some a) date
      (some ovs) = some (v, "saved") := by
    simp only [overrideStage, Option.getD_some, if_neg hne, hlook, if_neg hv]
  simp only [categorize_expense, hov]

/-- C1 witness: `C1_override_priority` applied at a concrete transaction
whose key is in the overrides (with value `"OverrideCat"`), whose merchant
token `"LOCAL SHOP"` is in the merchant map, and whose description matches
the keyword `"shop"` — the override still wins. -/
theorem C1_override_priority_witness :
    List.lookup (get_transaction_key md5A "Local Shop" "-5.0" none)
        [(keyLocalShop, "OverrideCat")] = some "OverrideCat" ∧
    ("OverrideCat" : String) ≠ "" ∧
    categorize_expense md5A (fun _ => 0) emptyDb "u" "Local Shop"
        (some "-5.0") none none (some [(keyLocalShop, "OverrideCat")])
        (some [("LOCAL SHOP", "MappedCat")]) (some [])
        (some [⟨"Groceries", ["shop"]⟩]) =
      ("OverrideCat", "saved") :=
  ⟨by decide, by decide,
   C1_override_priority md5A (fun _ => 0) emptyDb "u" "Local Shop" "-5.0" none
     none [(keyLocalShop, "OverrideCat")]
     (some [("LOCAL SHOP", "MappedCat")]) (some [])
     (some [⟨"Groceries", ["shop"]⟩]) "OverrideCat" (by decide) (by decide)⟩

/-- C3 counterexample: with one supplied category whose name is the empty
string (and no override, recipient, merchant or keyword match), the fallback
returns that name — the resolver does return an empty string, refuting the
claim's "never returns an empty string" conjunct. -/
theorem C3_empty_name_cex :
    categorize_expense (fun _ => "") (fun _ => 0) emptyDb "u" "xq" none none
        none (some []) (some []) (some []) (some [⟨"", []⟩]) =
      ("", "new") := by
  decide

/-- C3 (amended): with at least one supplied category and no override, no
recipient mapping, no merchant mapping and no keyword match, the resolver
returns the name of one of the supplied categories with status `new` (the
hash-modulo index is in bounds by construction, and the embedding is total,
so no exception arises); the returned name is non-empty whenever every
supplied category's name is non-empty — the unconditional "never returns an
empty string" is refuted by `C3_empty_name_cex`. -/
theorem C3_fallback_exhaustive (md5Hex : String → String) (pyHash : String → Int)
    (db : Database) (uid : String) (description : String)
    (amount date tok : Option String) (ovs mms zms : List (String × String))
    (cats : List Category)
    (ho : overrideStage md5Hex db uid tok description amount date (some ovs) =
      none)
    (hz : zelleStage db uid tok description (some zms) = none)
    (hm : merchantStage db uid tok description (some mms) = none)
    (hk : keywordStage cats (pyStrip (pyLower description)) = none)
    (hne : cats ≠ []) :
    (∃ c ∈ cats,
      categorize_expense md5Hex pyHash db uid description amount date tok
        (some ovs) (some mms) (some zms) (some cats) = (c.name, "new")) ∧
    ((∀ c ∈ cats, c.name ≠ "") →
      (categorize_expense md5Hex pyHash db uid description amount date tok
        (some ovs) (some mms) (some zms) (some cats)).1 ≠ "") := by
  have hcat : categorize_expense md5Hex pyHash db uid description amount date
      tok (some ovs) (some mms) (some zms) (some cats) =
      fallbackStage pyHash cats (pyStrip (pyLower description)) := by
    simp only [categorize_expense, Option.getD_some, ho, hz, hm, hk]
  obtain ⟨h1, h2⟩ :=
    fallbackStage_mem pyHash cats (pyStrip (pyLower description)) hne
  obtain ⟨c, hc, hcn⟩ := List.mem_map.mp h1
  have hfall : fallbackStage pyHash cats (pyStrip (pyLower description)) =
      (c.name, "new") := by
    rcases hF : fallbackStage pyHash cats (pyStrip (pyLower description))
      with ⟨x, y⟩
    rw [hF] at h2 hcn
    simp only at h2 hcn
    rw [hcn, h2]
  constructor
  · exact ⟨c, hc, by rw [hcat, hfall]⟩
  · intro hall
    rw [hcat, hfall]
    exact hall c hc

/-- C3 witness: `C3_fallback_exhaustive` at a concrete unmatched transaction
with the single category `"A"`: every stage hypothesis holds and the
resolver lands in the fallback with `("A", "new")`. -/
theorem C3_fallback_exhaustive_witness :
    overrideStage (fun _ => "") emptyDb "u" none "xq" none none (some []) =
        none ∧
    zelleStage emptyDb "u" none "xq" (some []) = none ∧
    merchantStage emptyDb "u" none "xq" (some []) = none ∧
    keywordStage [⟨"A", []⟩] (pyStrip (pyLower "xq")) = none ∧
    ([⟨"A", []⟩] : List Category) ≠ [] ∧
    ∃ c ∈ ([⟨"A", []⟩] : List Category),
      categorize_expense (fun _ => "") (fun _ => 0) emptyDb "u" "xq" none none
        none (some []) (some []) (some []) (some [⟨"A", []⟩]) =
        (c.name, "new") :=
  ⟨by decide, by decide, by decide, by decide, by decide,
   (C3_fallback_exhaustive (fun _ => "") (fun _ => 0) emptyDb "u" "xq" none
     none none [] [] [] [⟨"A", []⟩] (by decide) (by decide) (by decide)
     (by decide) (by decide)).1⟩

/-- C4 counterexample: on the empty description, and likewise on a
description that the noise-stripping erases entirely (a bare seven-digit
reference number), `extract_merchant_name` returns the empty string, not a
non-empty merchant token. -/
theorem C4_empty_description_cex :
    extract_merchant_name "" = "" ∧ extract_merchant_name "1234567" = "" := by
  refine ⟨by decide, by decide⟩

/-- C4 (amended): `extract_merchant_name` returns a non-empty merchant token
for every description whose cleaned form (after the noise-stripping steps
1-8) is non-empty; when the cleaning strips the description entirely — as
for the empty string or a bare long digit run, see
`C4_empty_description_cex` — it returns the empty string (the
"cleaned-but-unsplit string" fallback of the claim is the empty cleaned
string itself). -/
theorem C4_merchant_token_nonempty (description : String) :
    (mnCleaned description ≠ "" → extract_merchant_name description ≠ "") ∧
    (mnCleaned description = "" → extract_merchant_name description = "") := by
  constructor
  · intro h
    have hdata : (mnCleaned description).data ≠ [] := by
      intro hd
      exact h (data_inj (hd.trans rfl))
    have hX : (mnCleaned description).data = pyStripList (mnCleanededRaw description) := by
      simp only [mnCleaned, pyStrip]
    rcases stripList_cases (mnCleanededRaw description) with hnil | ⟨c, rest, heq, hc⟩
    · exact absurd (hX.trans hnil) hdata
    · have hD : (mnCleaned description).data = c :: rest := hX.trans heq
      unfold extract_merchant_name
      exact mnPick_ne_empty _ c rest hD hc
  · intro h
    unfold extract_merchant_name
    rw [h]
    decide

/-- C4 witness: `C4_merchant_token_nonempty` at the concrete description
`"HELLO WORLD"`, whose cleaned form is non-empty. -/
theorem C4_merchant_token_nonempty_witness :
    mnCleaned "HELLO WORLD" ≠ "" ∧ extract_merchant_name "HELLO WORLD" ≠ "" :=
  ⟨by decide, (C4_merchant_token_nonempty "HELLO WORLD").1 (by decide)⟩

/-- C5 counterexample: the pairs (`"1.0"`, `""`) and (`"1.0"`, `None`) differ
in the date field, yet produce the identical digest input and hence the
identical key: `if date:` treats the empty-string date as absent. -/
theorem C5_empty_date_cex :
    (some "" ≠ (none : Option String)) ∧
    transactionString "A" "1.0" (some "") = transactionString "A" "1.0" none ∧
    get_transaction_key (fun _ => "0a1b2c3d4e") "A" "1.0" (some "") =
      get_transaction_key (fun _ => "0a1b2c3d4e") "A" "1.0" none := by
  refine ⟨by decide, by decide, by decide⟩

/-- C5 (amended): for a fixed description, two calls to
`get_transaction_key` whose `(amount, date)` pairs differ in value — with
the empty-string date identified with the absent date (the code's
`if date:` guard, forced by `C5_empty_date_cex`) and amounts compared by
their canonical (bar-free) string forms — produce different digest inputs;
consequently their keys can coincide only when the truncated digest itself
collides. -/
theorem C5_key_sensitivity (md5Hex : String → String)
    (description a₁ a₂ : String) (d₁ d₂ : Option String)
    (hb₁ : ∀ c ∈ a₁.data, c ≠ '|') (hb₂ : ∀ c ∈ a₂.data, c ≠ '|')
    (hne : a₁ ≠ a₂ ∨ dateVal d₁ ≠ dateVal d₂) :
    transactionString description a₁ d₁ ≠ transactionString description a₂ d₂ ∧
    (get_transaction_key md5Hex description a₁ d₁ =
        get_transaction_key md5Hex description a₂ d₂ →
      (⟨(md5Hex (transactionString description a₁ d₁)).data.take 8⟩ : String) =
        (⟨(md5Hex (transactionString description a₂ d₂)).data.take 8⟩ :
          String)) := by
  constructor
  · intro heq
    obtain ⟨ha, hd⟩ := key_input_inj description a₁ a₂ d₁ d₂ hb₁ hb₂ heq
    rcases hne with hne | hne
    · exact hne ha
    · exact hne hd
  · intro hk
    unfold get_transaction_key at hk
    have h := congrArg String.data hk
    rw [String.data_append, String.data_append, String.data_append,
      String.data_append, List.append_assoc, List.append_assoc] at h
    have h2 := List.append_cancel_left (List.append_cancel_left h)
    exact data_inj h2

/-- C5 witness: `C5_key_sensitivity` at the concrete pairs
(`"1.0"`, no date) and (`"2.0"`, no date): the digest inputs differ. -/
theorem C5_key_sensitivity_witness :
    (∀ c ∈ ("1.0" : String).data, c ≠ '|') ∧
    (∀ c ∈ ("2.0" : String).data, c ≠ '|') ∧
    (("1.0" : String) ≠ "2.0" ∨ dateVal none ≠ dateVal none) ∧
    transactionString "A" "1.0" none ≠ transactionString "A" "2.0" none :=
  ⟨by decide, by decide, Or.inl (by decide),
   (C5_key_sensitivity (fun s => s) "A" "1.0" "2.0" none none (by decide)
     (by decide) (Or.inl (by decide))).1⟩

/-- C6: when all four reference collections are supplied explicitly, the
resolver never touches the database: the result is the same under any two
ambient database states (and any two user ids and tokens, which exist only
to parameterize database reads). Purity itself is inherent to the
embedding — the source function performs data access only through the
`DatabaseService` reads modelled by `db`. -/
theorem C6_explicit_args_pure (md5Hex : String → String) (pyHash : String → Int)
    (db₁ db₂ : Database) (uid₁ uid₂ : String) (tok₁ tok₂ : Option String)
    (description : String) (amount date : Option String)
    (ovs mms zms : List (String × String)) (cats : List Category) :
    categorize_expense md5Hex pyHash db₁ uid₁ description amount date tok₁
        (some ovs) (some mms) (some zms) (some cats) =
      categorize_expense md5Hex pyHash db₂ uid₂ description amount date tok₂
        (some ovs) (some mms) (some zms) (some cats) := by
  simp only [categorize_expense, overrideStage, zelleStage, merchantStage,
    Option.getD_some]

/-- C10: with `amount = None` the override stage is skipped entirely: it
yields no result, and the resolver's output does not depend on the
`overrides` argument nor on the stored override table (here replaced
wholesale by `f`), proceeding with the recipient, merchant, keyword and
fallback stages; in particular the call is total (no exception is
modelled or needed). -/
theorem C10_amount_none_skips_overrides (md5Hex : String → String)
    (pyHash : String → Int) (db : Database)
    (f : String → Option String → List (String × String)) (uid : String)
    (tok : Option String) (description : String) (date : Option String)
    (o₁ o₂ mm zm : Option (List (String × String)))
    (categories : Option (List Category)) :
    overrideStage md5Hex db uid tok description none date o₁ = none ∧
    categorize_expense md5Hex pyHash db uid description none date tok o₁ mm zm
        categories =
      categorize_expense md5Hex pyHash
        (Database.mk f db.merchant_mappings db.zelle_recipients db.categories) uid description none date tok
        o₂ mm zm categories :=
  ⟨rfl, rfl⟩

end FinancialPro
